import Mathlib

/-!
Shallow embedding of the Unstack PR quality-gate pipeline
(`src/scripts/pr-monitor.js`, `src/scripts/test-runner.js`, and the
refactor analyzer in `src/unnamed/part_000`).

Wall-clock timestamps are modelled as integers, file contents as lists of
lines, and the outcomes of external processes (git, npm, the GitHub API)
as oracles mapping each command to a success bit.  Branch state of the
single working tree is threaded explicitly as the name of the active
branch.
-/

namespace Unstack

/-! ## Data model -/

/-- A pull request as consumed from the remote listing
(`pr.number`, `pr.created_at` in `pr-monitor.js`). -/
structure PRData where
  number : Nat
  createdAt : Int
  deriving DecidableEq, Repr

/-- The analysis record built by `PRMonitor.analyzePRChanges`
(only the fields consulted by control flow are kept). -/
structure Analysis where
  totalFiles : Nat
  additions : Nat
  deletions : Nat
  deriving DecidableEq, Repr

/-- One external command issued through `execSync` or the GitHub API by
`PRMonitor.runTests` / `RefactorAnalyzer.generateRefactoringPR`. -/
inductive GitCmd where
  | fetchPR (n : Nat)
  | checkout (branch : String)
  | checkoutNew (branch : String)
  | npmInstall
  | npmLint
  | npmBuild
  | tscNoEmit
  | eslintFix
  | prettierWrite
  | gitDiffExitCode
  | gitAddAll
  | gitCommit (n : Nat)
  | gitPush (branch : String)
  | apiCreatePR
  deriving DecidableEq, Repr

/-- Success/failure of each external command is an environment choice. -/
def Oracle := GitCmd → Bool

/-- Effect of a successful command on the active branch of the working
tree: `git checkout` and `git checkout -b` switch branches, everything
else leaves the branch alone.  A failed command never switches. -/
def cmdBranch (c : GitCmd) (br : String) : String :=
  match c with
  | .checkout b => b
  | .checkoutNew b => b
  | _ => br

/-- Run one external command: returns whether it succeeded together with
the branch the working tree is on afterwards. -/
def execCmd (o : Oracle) (c : GitCmd) (br : String) : Bool × String :=
  if o c then (true, cmdBranch c br) else (false, br)

/-! ## `PRMonitor.getNewPullRequests` (pr-monitor.js:47-69)

The remote listing either yields the open PRs (`some prs`) or throws
(`none`); a throw is caught and the empty list is returned.  Otherwise
the list is filtered to PRs created strictly after the checkpoint. -/

def getNewPullRequests (fetched : Option (List PRData)) (lastChecked : Int) :
    List PRData :=
  match fetched with
  | none => []
  | some prs => prs.filter (fun pr => lastChecked < pr.createdAt)

/-! ## `PRMonitor.runTests` (pr-monitor.js:115-157)

fetch the PR head, check out its branch, `npm install`, lint (failure
caught and ignored), build, type-check; any uncaught failure flips the
outcome to failure; the `finally` block always attempts
`git checkout main`. -/

structure TestOutcome where
  success : Bool
  errors : List String
  deriving DecidableEq, Repr

/-- The `finally` block of `runTests` / `generateRefactoringPR`:
attempt to check out `main`, keeping the current branch if that fails. -/
def checkoutMainFinally (o : Oracle) (br : String) : String :=
  (execCmd o (.checkout "main") br).2

def prBranchName (n : Nat) : String := "pr-" ++ toString n

def runTests (o : Oracle) (prNumber : Nat) (br : String) :
    TestOutcome × String :=
  let fail (msg : String) (b : String) : TestOutcome × String :=
    (⟨false, [msg]⟩, checkoutMainFinally o b)
  let (ok₁, br₁) := execCmd o (.fetchPR prNumber) br
  if !ok₁ then fail "git fetch failed" br₁ else
  let (ok₂, br₂) := execCmd o (.checkout (prBranchName prNumber)) br₁
  if !ok₂ then fail "git checkout failed" br₂ else
  let (ok₃, br₃) := execCmd o .npmInstall br₂
  if !ok₃ then fail "npm install failed" br₃ else
  -- lint failure is caught inside the try and only logged
  let (_, br₄) := execCmd o .npmLint br₃
  let (ok₅, br₅) := execCmd o .npmBuild br₄
  if !ok₅ then fail "npm run build failed" br₅ else
  let (ok₆, br₆) := execCmd o .tscNoEmit br₅
  if !ok₆ then fail "tsc --noEmit failed" br₆ else
  (⟨true, []⟩, checkoutMainFinally o br₆)

/-! ## `PRMonitor.processPullRequest` (pr-monitor.js:172-224) and
`PRMonitor.start` (pr-monitor.js:237-254)

`analyzePRChanges` catches its own errors and returns `null` (`none`).
After `runTests`, a comment is posted on the PR in both the success and
the failure branch; `octokit.issues.createComment` may throw and that
throw is *not* caught anywhere in `processPullRequest` or in the loop of
`start`.  Refactoring is triggered only in the success branch, after the
comment, when `analysis && (analysis.totalFiles > 5 || analysis.additions
> 100)`; `triggerRefactoring` catches its own errors. -/

/-- Per-unit environment: outcome of the analysis call (`none` = the
listFiles call threw and was caught), the git/tool oracle used by
`runTests`, and whether `createComment` succeeds for this unit. -/
structure UnitEnv where
  analysis : Option Analysis
  gitOracle : Oracle
  commentOk : Bool

/-- The remediation predicate of pr-monitor.js:206. -/
def refactorPredicate (analysis : Option Analysis) : Bool :=
  match analysis with
  | none => false
  | some a => decide (5 < a.totalFiles) || decide (100 < a.additions)

structure ProcResult where
  threw : Bool
  triggered : Bool
  deriving DecidableEq, Repr

def processPullRequest (pr : PRData) (env : UnitEnv) (br : String) :
    ProcResult × String :=
  let (testResults, br') := runTests env.gitOracle pr.number br
  if testResults.success then
    if env.commentOk then
      if refactorPredicate env.analysis then (⟨false, true⟩, br')
      else (⟨false, false⟩, br')
    else (⟨true, false⟩, br')
  else
    if env.commentOk then (⟨false, false⟩, br')
    else (⟨true, false⟩, br')

/-- Result of one `start` cycle: the numbers of the PRs for which
`processPullRequest` was invoked, whether an uncaught error aborted the
loop, and the final branch. -/
structure CycleResult where
  processed : List Nat
  aborted : Bool
  finalBranch : String
  deriving DecidableEq, Repr

/-- The `for (const pr of newPRs)` loop of `start`: no try/catch around
`processPullRequest`, so a throw aborts the loop (and skips the
checkpoint update). -/
def startLoop (envs : Nat → UnitEnv) : List PRData → String → CycleResult
  | [], br => ⟨[], false, br⟩
  | pr :: rest, br =>
    let (r, br') := processPullRequest pr (envs pr.number) br
    if r.threw then ⟨[pr.number], true, br'⟩
    else
      let c := startLoop envs rest br'
      ⟨pr.number :: c.processed, c.aborted, c.finalBranch⟩

/-- `PRMonitor.start`: detect new PRs, process each, then (only if no
uncaught error occurred) overwrite the checkpoint file with the current
wall-clock time (`updateLastCheckedTime`, pr-monitor.js:42-45). -/
def monitorStart (fetched : Option (List PRData)) (lastChecked : Int)
    (envs : Nat → UnitEnv) (now : Int) (br : String) :
    CycleResult × Option Int :=
  let newPRs := getNewPullRequests fetched lastChecked
  let c := startLoop envs newPRs br
  (c, if c.aborted then none else some now)

/-! ## The static-analyzer suggestion record (part_000)

`file`/`line` are optional: component-complexity and consistency
suggestions omit them (a missing `file` renders as the string
`"undefined"` in the PR description, as JavaScript template literals
do). -/

structure Suggestion where
  type : String
  file : Option String
  line : Option Nat
  message : String
  severity : String
  suggestion : String
  deriving DecidableEq, Repr

/-! ## `RefactorAnalyzer.generateRefactoringPR` (part_000:302-359)

If the suggestion list is empty the method returns *before* the
`try`/`finally`, leaving the branch untouched.  Otherwise: create the
refactor branch (`git checkout -b`); apply automatic fixes (both tools
catch their own failures); `git diff --exit-code` — exit 0 means no
changes, log and return; otherwise add, commit, push and open the PR,
any of which may throw into the `catch`.  The `finally` block always
attempts `git checkout main`. -/

def refactorBranchName (n : Nat) : String :=
  "refactor/automated-improvements-pr-" ++ toString n

def generateRefactoringPR (o : Oracle) (prNumber : Nat)
    (suggestions : List Suggestion) (br : String) : Bool × String :=
  if suggestions.length = 0 then (false, br)
  else
    let (ok₁, br₁) := execCmd o (.checkoutNew (refactorBranchName prNumber)) br
    if !ok₁ then (false, checkoutMainFinally o br₁) else
    -- applyAutomaticFixes: eslint --fix and prettier, failures caught
    let (_, br₂) := execCmd o .eslintFix br₁
    let (_, br₃) := execCmd o .prettierWrite br₂
    let (noChanges, br₄) := execCmd o .gitDiffExitCode br₃
    if noChanges then (false, checkoutMainFinally o br₄) else
    let (ok₅, br₅) := execCmd o .gitAddAll br₄
    if !ok₅ then (false, checkoutMainFinally o br₅) else
    let (ok₆, br₆) := execCmd o (.gitCommit prNumber) br₅
    if !ok₆ then (false, checkoutMainFinally o br₆) else
    let (ok₇, br₇) := execCmd o (.gitPush (refactorBranchName prNumber)) br₆
    if !ok₇ then (false, checkoutMainFinally o br₇) else
    let (ok₈, br₈) := execCmd o .apiCreatePR br₇
    if !ok₈ then (false, checkoutMainFinally o br₈) else
    (true, checkoutMainFinally o br₈)

/-- Environment of the C4 counterexample: every external tool succeeds
and the analysis is small, but posting the comment for PR 1 throws. -/
def c4Envs : Nat → UnitEnv := fun n =>
  { analysis := some ⟨1, 1, 0⟩, gitOracle := fun _ => true,
    commentOk := decide (n ≠ 1) }

/-! ## `TestRunner` (test-runner.js)

`runTest` (test-runner.js:42-74) runs one named check.  On success the
`passed` counter is bumped and the result record appended to
`results.tests`; on failure the `failed` counter is bumped, and for a
*critical* check an error is thrown from inside the `catch` — note that
this happens *before* the `this.results.tests.push(result)` line, so the
failing critical check's record is never appended.  `runAllTests`
(test-runner.js:334-359) runs the checks in order inside a try/catch
whose catch breaks the loop.  The check outcome (whether the underlying
tool invocation resolves or rejects) is environment data carried on the
check itself.  Wall-clock durations are abstracted away. -/

/-- One declared check: its name, criticality, the outcome its
`testFunction` will produce, and the error message it rejects with. -/
structure CheckSpec where
  name : String
  critical : Bool
  ok : Bool
  errMsg : String
  deriving DecidableEq, Repr

/-- A recorded check result (`result` in `runTest`). -/
structure CheckResult where
  name : String
  status : String
  error : Option String
  critical : Bool
  deriving DecidableEq, Repr

/-- `this.results` of `TestRunner`.  `skipped` is never incremented
anywhere in the source. -/
structure RunResults where
  passed : Nat
  failed : Nat
  skipped : Nat
  tests : List CheckResult
  deriving DecidableEq, Repr

def initResults : RunResults := ⟨0, 0, 0, []⟩

/-- `TestRunner.runTest`: returns the updated results and whether the
call threw (it throws exactly when a critical check fails, and the
throw precedes the push of the result record). -/
def runTest (res : RunResults) (c : CheckSpec) : RunResults × Bool :=
  if c.ok then
    ({ res with passed := res.passed + 1,
                tests := res.tests ++ [⟨c.name, "passed", none, c.critical⟩] },
     false)
  else
    let res' := { res with failed := res.failed + 1 }
    if c.critical then (res', true)
    else
      ({ res' with
          tests := res'.tests ++ [⟨c.name, "failed", some c.errMsg, c.critical⟩] },
       false)

/-- The loop of `TestRunner.runAllTests`: each check runs inside a
try/catch whose catch breaks out of the loop. -/
def runChecks : List CheckSpec → RunResults → RunResults
  | [], res => res
  | c :: rest, res =>
    let (res', threw) := runTest res c
    if threw then res' else runChecks rest res'

/-- The fixed check list of `runAllTests` (outcomes supplied by the
environment as a function from check index). -/
def allTestsChecks (outcome : Nat → Bool) (errMsg : Nat → String) :
    List CheckSpec :=
  [⟨"Build Test", true, outcome 0, errMsg 0⟩,
   ⟨"TypeScript Check", true, outcome 1, errMsg 1⟩,
   ⟨"Linting", false, outcome 2, errMsg 2⟩,
   ⟨"Dependency Security", false, outcome 3, errMsg 3⟩,
   ⟨"Code Quality", false, outcome 4, errMsg 4⟩,
   ⟨"Performance", false, outcome 5, errMsg 5⟩,
   ⟨"Security Scan", false, outcome 6, errMsg 6⟩,
   ⟨"Accessibility", false, outcome 7, errMsg 7⟩]

/-- The success verdict of `generateReport` (test-runner.js:402,
`return this.results.failed === 0`) — also the CLI exit criterion
(test-runner.js:412, `success = runner.results.failed === 0`). -/
def reportSuccess (res : RunResults) : Bool := res.failed == 0

/-- The summary total of `generateReport` (test-runner.js:366). -/
def reportTotal (res : RunResults) : Nat :=
  res.passed + res.failed + res.skipped

/-- The five-check run of claim C2: the second check is critical and
fails, the other four would pass. -/
def c2Checks : List CheckSpec :=
  [⟨"A", false, true, ""⟩,
   ⟨"B", true, false, "boom"⟩,
   ⟨"C", false, true, ""⟩,
   ⟨"D", false, true, ""⟩,
   ⟨"E", false, true, ""⟩]

/-- The record `runTest` builds for an executed check. -/
def checkEntry (c : CheckSpec) : CheckResult :=
  if c.ok then ⟨c.name, "passed", none, c.critical⟩
  else ⟨c.name, "failed", some c.errMsg, c.critical⟩

/-- The two-check run of claim C3: the critical check passes and the
advisory linting check fails. -/
def c3Checks : List CheckSpec :=
  [⟨"Build Test", true, true, ""⟩,
   ⟨"Linting", false, false, "lint error"⟩]

/-! ## `RefactorAnalyzer` string primitives

`String.prototype.trim`, `String.prototype.includes` and the
brace-counting regexes of part_000 over explicit character lists.  A
source file is modelled as its name together with its list of lines
(`content.split('\n')`). -/

/-- Whitespace stripped by JavaScript's `trim`. -/
def jsWhitespace (c : Char) : Bool :=
  c == ' ' || c == '\t' || c == '\n' || c == '\r' || c == '\x0b' || c == '\x0c'

/-- `String.prototype.trim`. -/
def jsTrim (s : String) : String :=
  ⟨((s.data.dropWhile jsWhitespace).reverse.dropWhile jsWhitespace).reverse⟩

/-- Character-list prefix test (used by `strIncludes`). -/
def charsPrefix : List Char → List Char → Bool
  | [], _ => true
  | _ :: _, [] => false
  | a :: as, b :: bs => a == b && charsPrefix as bs

/-- Character-list contiguous-substring test (used by `strIncludes`). -/
def charsSub (p : List Char) : List Char → Bool
  | [] => charsPrefix p []
  | c :: t => charsPrefix p (c :: t) || charsSub p t

/-- `String.prototype.includes`. -/
def strIncludes (s pat : String) : Bool := charsSub pat.data s.data

/-- `(line.match(/c/g) || []).length` for a single character `c`. -/
def countChar (c : Char) (s : String) : Nat := s.data.count c

/-! ## `RefactorAnalyzer.checkForLongFunctions` (part_000:48-93) -/

/-- The function-like-declaration heuristic of part_000:65 (JavaScript
`||`/`&&` precedence applied). -/
def isDeclLine (l : String) : Bool :=
  strIncludes l "function " ||
  (strIncludes l "const " && strIncludes l " = " && strIncludes l "=>")

/-- The suggestion pushed at part_000:80-87. -/
def longFnSuggestion (file : String) (functionStart functionLength : Nat) :
    Suggestion :=
  { type := "refactor", file := some file, line := some (functionStart + 1),
    message := "Function is " ++ toString functionLength ++
      " lines long. Consider breaking it into smaller functions.",
    severity := "medium",
    suggestion := "Break this function into smaller, more focused functions." }

/-- The `for (let i = 0; ...)` loop of `checkForLongFunctions`
(part_000:61-91): detect a declaration while at depth 0 (before this
line's braces are counted), update the brace depth from the trimmed
line, and when a tracked function's depth returns to 0 on a later line
emit a suggestion if `i - functionStart > 50`. -/
def lfLoop (file : String) :
    List String → Nat → Option String → Nat → Int → List Suggestion
  | [], _, _, _, _ => []
  | raw :: rest, i, currentFunction, functionStart, braceCount =>
    let line := jsTrim raw
    let (cur₁, start₁) :=
      if isDeclLine line && braceCount == 0 then (some line, i)
      else (currentFunction, functionStart)
    let braces₁ := braceCount + (countChar '\x7b' line : Int) -
      (countChar '\x7d' line : Int)
    if cur₁.isSome && braces₁ == 0 && decide (start₁ < i) then
      (if decide (50 < i - start₁) then
        [longFnSuggestion file start₁ (i - start₁)] else [])
        ++ lfLoop file rest (i + 1) none start₁ braces₁
    else
      lfLoop file rest (i + 1) cur₁ start₁ braces₁

/-- `checkForLongFunctions` over the source tree: per-file scans with
fresh state, suggestions appended in file order. -/
def checkForLongFunctions (files : List (String × List String)) :
    List Suggestion :=
  (files.map (fun f => lfLoop f.1 f.2 0 none 0 0)).flatten

/-- The boundary-test file family for claim C8: a declaration line, `k`
body lines, and the closing-brace line (depth returns to 0 at index
`k + 1`, so the code's `functionLength` is `k + 1`). -/
def funcFileLines (k : Nat) : List String :=
  "function f() \x7b" :: (List.replicate k "x" ++ ["\x7d"])

/-! ## `RefactorAnalyzer.checkForDuplicateCode` (part_000:95-125) -/

/-- One 5-line-window position: file, 1-based anchor line (`i + 1`),
and the trimmed joined block text. -/
structure DupPos where
  file : String
  line : Nat
  block : String
  deriving DecidableEq, Repr

/-- `lines.slice(i, i + 5).join('\n').trim()` (part_000:107). -/
def windowBlock (lines : List String) (i : Nat) : String :=
  jsTrim (String.intercalate "\n" ((lines.drop i).take 5))

/-- All window positions of the tree in scan order (files in order,
`i` from 0 to `lines.length - 5`). -/
def dupPositions (files : List (String × List String)) : List DupPos :=
  (files.map (fun f =>
    (List.range (f.2.length - 4)).map
      (fun i => ⟨f.1, i + 1, windowBlock f.2 i⟩))).flatten

/-- The suggestion pushed at part_000:111-118 for a repeated block
first seen at `firstFile:firstLine`. -/
def dupSuggestion (file : String) (line : Nat)
    (firstFile : String) (firstLine : Nat) : Suggestion :=
  { type := "refactor", file := some file, line := some line,
    message := "Duplicate code block found (also in " ++ firstFile ++
      ":" ++ toString firstLine ++ ")",
    severity := "medium",
    suggestion := "Extract this code into a reusable function or component." }

/-- The scan over all window positions, threading the
`codeBlocks` map (association list keyed by block text; a key is
inserted only on first sight, so the stored value stays the first
occurrence): blocks of trimmed length > 50 emit a suggestion on every
repeat occurrence, referencing the first. -/
def dupScanAux : List DupPos → List (String × String × Nat) → List Suggestion
  | [], _ => []
  | p :: ps, seen =>
    if 50 < p.block.length then
      match seen.lookup p.block with
      | some fl => dupSuggestion p.file p.line fl.1 fl.2 :: dupScanAux ps seen
      | none => dupScanAux ps ((p.block, (p.file, p.line)) :: seen)
    else dupScanAux ps seen

def checkForDuplicateCode (files : List (String × List String)) :
    List Suggestion :=
  dupScanAux (dupPositions files) []

/-- Restriction of a suggestion list to the two locations of interest
(used to state claim C7). -/
def anchoredAt (f₁ : String) (l₁ : Nat) (f₂ : String) (l₂ : Nat)
    (l : List Suggestion) : List Suggestion :=
  l.filter (fun s =>
    (s.file == some f₁ && s.line == some l₁) ||
    (s.file == some f₂ && s.line == some l₂))

/-- The concrete two-file tree of the C7 witness: the same 5-line block
(84 trimmed characters) appears once in each of two files. -/
def c7Lines : List String :=
  ["const alpha = 1;", "const alpha = 1;", "const alpha = 1;",
   "const alpha = 1;", "const alpha = 1;"]

def c7Files : List (String × List String) :=
  [("a.ts", c7Lines), ("b.ts", c7Lines)]

def c7Block : String :=
  "const alpha = 1;\nconst alpha = 1;\nconst alpha = 1;\nconst alpha = 1;\nconst alpha = 1;"

/-! ## `RefactorAnalyzer.generatePRDescription` (part_000:381-423) -/

/-- `suggestions.filter(s => s.severity === sev)`. -/
def sevFilter (sev : String) (l : List Suggestion) : List Suggestion :=
  l.filter (fun s => s.severity == sev)

/-- `${s.file}` in a template literal: a missing field renders as
`"undefined"`. -/
def fileStr (s : Suggestion) : String :=
  match s.file with
  | some f => f
  | none => "undefined"

/-- One `- **file**: message` bullet (part_000:392). -/
def suggLine (s : Suggestion) : String :=
  "- **" ++ (fileStr s ++ ("**: " ++ s.message))

def hdrHigh : String := "### 🔴 High Priority Issues ("
def hdrMed : String := "### 🟡 Medium Priority Issues ("
def hdrLow : String := "### 🟢 Low Priority Issues ("

/-- A severity-section heading with its count. -/
def sectionHeader (pfx : String) (n : Nat) : String :=
  pfx ++ (toString n ++ ")")

/-- The `forEach` accumulation of one section's bullet lines. -/
def itemsStr : List Suggestion → String
  | [] => ""
  | s :: rest => suggLine s ++ "\n" ++ itemsStr rest

/-- One severity section as appended by the source: heading line, one
bullet per suggestion, then a blank line. -/
def sectionStr (pfx : String) (items : List Suggestion) : String :=
  sectionHeader pfx items.length ++ "\n" ++ (itemsStr items ++ "\n")

/-- The fixed trailer (part_000:413-420): the automatic-fixes note, the
manual-review note and the signature. -/
def descriptionTail : String :=
  "### 🤖 Automatic Fixes Applied\n- ESLint automatic fixes\n- Prettier code formatting\n\n### 📋 Manual Review Needed\nPlease review the suggestions above and consider implementing the recommended changes.\n\n---\n*This PR was automatically generated by the code quality monitoring system.*"

/-- The generated PR body: intro, the three severity sections (each
rendered only when non-empty), then the fixed trailer. -/
def generatePRDescription (prNumber : Nat) (suggestions : List Suggestion) :
    String :=
  let highPriority := sevFilter "high" suggestions
  let mediumPriority := sevFilter "medium" suggestions
  let lowPriority := sevFilter "low" suggestions
  let d0 := "## 🔧 Automated Code Improvements\n\n"
  let d1 := d0 ++
    ("This PR contains automated code improvements based on analysis of PR #"
      ++ (toString prNumber ++ ".\n\n"))
  let d2 := if 0 < highPriority.length then
    d1 ++ sectionStr hdrHigh highPriority else d1
  let d3 := if 0 < mediumPriority.length then
    d2 ++ sectionStr hdrMed mediumPriority else d2
  let d4 := if 0 < lowPriority.length then
    d3 ++ sectionStr hdrLow lowPriority else d3
  d4 ++ descriptionTail

/-- The same description viewed as its list of lines (the source
emits each chunk terminated by a newline, so the whole body is the
newline-join of these lines). -/
def introLines (n : Nat) : List String :=
  ["## 🔧 Automated Code Improvements", "",
   "This PR contains automated code improvements based on analysis of PR #"
     ++ (toString n ++ "."), ""]

def sectionLines (pfx : String) (items : List Suggestion) : List String :=
  sectionHeader pfx items.length :: (items.map suggLine ++ [""])

def tailLines : List String :=
  ["### 🤖 Automatic Fixes Applied", "- ESLint automatic fixes",
   "- Prettier code formatting", "", "### 📋 Manual Review Needed",
   "Please review the suggestions above and consider implementing the recommended changes.",
   "", "---",
   "*This PR was automatically generated by the code quality monitoring system.*"]

def descriptionLines (n : Nat) (suggestions : List Suggestion) :
    List String :=
  introLines n ++
    ((if 0 < (sevFilter "high" suggestions).length then
        sectionLines hdrHigh (sevFilter "high" suggestions) else []) ++
    ((if 0 < (sevFilter "medium" suggestions).length then
        sectionLines hdrMed (sevFilter "medium" suggestions) else []) ++
    ((if 0 < (sevFilter "low" suggestions).length then
        sectionLines hdrLow (sevFilter "low" suggestions) else []) ++
      tailLines)))

/-- Newline-join of a list of lines (no trailing newline). -/
def joinLines : List String → String
  | [] => ""
  | [a] => a
  | a :: b :: rest => a ++ "\n" ++ joinLines (b :: rest)

/-- The suggestion list of C9's concrete example: one high-severity and
two low-severity suggestions, no medium-severity ones. -/
def c9Suggs : List Suggestion :=
  [⟨"refactor", some "a.tsx", none, "Component is 310 lines long.",
      "high", "Split this component."⟩,
   ⟨"improvement", some "a.ts", none, "Found 2 usage(s) of any type.",
      "low", "Replace any types."⟩,
   ⟨"consistency", none, none, "Mixed quote styles found.",
      "low", "Use single quotes."⟩]

end Unstack

namespace Unstack

/-! ## Claim C5: strict checkpoint filtering -/

/-- **C5.** For every checkpoint `T` and every open unit with creation
timestamp `t`, the change detector returns the unit iff `t > T`
(strictly); a unit created exactly at `T` is not returned, and the
empty list is an ordinary (non-error) value of the function. -/
theorem C5_change_detector_strict (T : Int) (prs : List PRData) (u : PRData) :
    (u ∈ getNewPullRequests (some prs) T ↔ u ∈ prs ∧ T < u.createdAt) ∧
    (u.createdAt = T → u ∉ getNewPullRequests (some prs) T) ∧
    getNewPullRequests (some []) T = [] := by
  refine ⟨?_, ?_, rfl⟩
  · simp [getNewPullRequests, List.mem_filter]
  · intro hEq hMem
    rw [getNewPullRequests, List.mem_filter] at hMem
    have := hMem.2
    simp [hEq] at this

/-- Witness for C5 at a concrete checkpoint and unit list. -/
theorem C5_change_detector_strict_witness :
    (⟨7, 5⟩ : PRData) ∈ getNewPullRequests (some [⟨7, 5⟩, ⟨8, 3⟩]) 3 ∧
    (⟨8, 3⟩ : PRData) ∉ getNewPullRequests (some [⟨7, 5⟩, ⟨8, 3⟩]) 3 := by
  refine ⟨?_, ?_⟩
  · exact (C5_change_detector_strict 3 [⟨7, 5⟩, ⟨8, 3⟩] ⟨7, 5⟩).1.mpr
      (by decide)
  · exact (C5_change_detector_strict 3 [⟨7, 5⟩, ⟨8, 3⟩] ⟨8, 3⟩).2.1 rfl

/-! ## Claim C1: the working tree always ends on the baseline branch -/

/-- **C1.** Whenever the environment lets the (unconditional) restoring
`git checkout main` of the `finally` blocks succeed, `runTests` leaves
the working tree on `main` no matter which of its internal steps (fetch,
checkout, install, lint, build, type-check) fail, from any starting
branch; and `generateRefactoringPR`, started from the baseline branch as
the workflow state machine does, leaves the tree on `main` no matter
which of its steps (branch creation, fix tools, diff gate, add, commit,
push, PR creation) fail. -/
theorem C1_always_back_on_main (o : Oracle) (prNumber : Nat) (br : String)
    (suggestions : List Suggestion)
    (hMain : o (GitCmd.checkout "main") = true) :
    (runTests o prNumber br).2 = "main" ∧
    (generateRefactoringPR o prNumber suggestions "main").2 = "main" := by
  have hFin : ∀ b, checkoutMainFinally o b = "main" := by
    intro b
    simp [checkoutMainFinally, execCmd, hMain, cmdBranch]
  constructor
  · rw [runTests]
    dsimp only
    repeat' split
    all_goals simp [hFin]
  · rw [generateRefactoringPR]
    dsimp only
    repeat' split
    all_goals simp [hFin]

/-- Witness for C1: a concrete environment in which the PR branch
checkout fails, and one in which everything succeeds. -/
theorem C1_always_back_on_main_witness :
    ((fun c => decide (c = GitCmd.checkout "main")) : Oracle)
        (GitCmd.checkout "main") = true ∧
    (runTests (fun c => decide (c = GitCmd.checkout "main")) 4 "main").2
        = "main" ∧
    (generateRefactoringPR (fun c => decide (c = GitCmd.checkout "main")) 4
        [⟨"refactor", some "a.ts", some 1, "m", "medium", "s"⟩] "main").2
        = "main" := by
  have h := C1_always_back_on_main
    (fun c => decide (c = GitCmd.checkout "main")) 4 "main"
    [⟨"refactor", some "a.ts", some 1, "m", "medium", "s"⟩] (by decide)
  exact ⟨by decide, h.1, h.2⟩

/-! ## Claim C6: when the remediation workflow is triggered -/

/-- **C6.** `triggerRefactoring` is never invoked when the unit's tests
failed or the threshold predicate (analysis present and
`totalFiles > 5 || additions > 100`) is false; and on a run that posts
its comment successfully it is invoked exactly when the tests succeeded
and the predicate holds. -/
theorem C6_refactor_trigger_iff (pr : PRData) (env : UnitEnv) (br : String)
    (hComment : env.commentOk = true) :
    ((processPullRequest pr env br).1.triggered = true ↔
      (runTests env.gitOracle pr.number br).1.success = true ∧
      refactorPredicate env.analysis = true) ∧
    ((processPullRequest pr env br).1.triggered = true →
      (runTests env.gitOracle pr.number br).1.success = true ∧
      refactorPredicate env.analysis = true) := by
  rw [processPullRequest]
  dsimp only
  constructor
  · repeat' split
    all_goals simp_all
  · repeat' split
    all_goals simp_all

/-- Witness for C6: with all external commands succeeding and a large
analysis, the refactoring is triggered. -/
theorem C6_refactor_trigger_iff_witness :
    ({ analysis := some ⟨6, 10, 0⟩, gitOracle := fun _ => true,
        commentOk := true } : UnitEnv).commentOk = true ∧
    (processPullRequest ⟨3, 0⟩
      { analysis := some ⟨6, 10, 0⟩, gitOracle := fun _ => true,
        commentOk := true } "main").1.triggered = true := by
  refine ⟨rfl, ?_⟩
  exact (C6_refactor_trigger_iff ⟨3, 0⟩
    { analysis := some ⟨6, 10, 0⟩, gitOracle := fun _ => true,
      commentOk := true } "main" rfl).1.mpr ⟨by decide, by decide⟩

/-! ## Claim C10: a throwing PR listing silently advances the checkpoint -/

/-- **C10.** If the remote listing throws, `getNewPullRequests` catches
the error and returns `[]` (the same value a genuine empty listing
produces); the cycle then completes without processing anything and
still overwrites the checkpoint with the current wall-clock time `now`;
consequently no later cycle, whose checkpoint is `now`, ever returns a
unit created at or before `now`. -/
theorem C10_failed_fetch_advances_checkpoint (T now : Int)
    (envs : Nat → UnitEnv) (br : String) :
    getNewPullRequests none T = [] ∧
    getNewPullRequests none T = getNewPullRequests (some []) T ∧
    monitorStart none T envs now br = (⟨[], false, br⟩, some now) ∧
    ∀ (prs : List PRData) (u : PRData), u.createdAt ≤ now →
      u ∉ getNewPullRequests (some prs) now := by
  refine ⟨rfl, rfl, rfl, ?_⟩
  intro prs u hle hmem
  rw [getNewPullRequests, List.mem_filter] at hmem
  have := hmem.2
  simp at this
  omega

/-- Witness for C10: a unit created at time 5 is lost once the
checkpoint has been overwritten with time 10 by the failed cycle. -/
theorem C10_failed_fetch_advances_checkpoint_witness :
    getNewPullRequests none 0 = [] ∧
    (⟨1, 5⟩ : PRData) ∉ getNewPullRequests (some [⟨1, 5⟩]) 10 := by
  have h := C10_failed_fetch_advances_checkpoint 0 10
    (fun _ => ⟨none, fun _ => true, true⟩) "main"
  exact ⟨h.1, h.2.2.2 [⟨1, 5⟩] ⟨1, 5⟩ (by decide)⟩

/-! ## Claim C4: per-unit isolation in the cycle loop -/

/-- The only way `processPullRequest` throws is a failing
`createComment`: analysis and test-execution errors are caught inside
`analyzePRChanges` / `runTests`, and `triggerRefactoring` catches its
own errors. -/
theorem processPullRequest_threw (pr : PRData) (env : UnitEnv)
    (br : String) :
    (processPullRequest pr env br).1.threw = !env.commentOk := by
  rw [processPullRequest]
  dsimp only
  repeat' split
  all_goals simp_all

/-- **C4 counterexample.** In a cycle that detected PRs 1 and 2, an
error while posting the comment for PR 1 aborts the loop of `start`:
PR 2 is never processed (and the checkpoint is not updated), refuting
per-unit isolation as claimed. -/
theorem C4_counterexample :
    (monitorStart (some [⟨1, 5⟩, ⟨2, 6⟩]) 0 c4Envs 10 "main").1.processed
        = [1] ∧
    (monitorStart (some [⟨1, 5⟩, ⟨2, 6⟩]) 0 c4Envs 10 "main").1.aborted
        = true ∧
    2 ∉ (monitorStart (some [⟨1, 5⟩, ⟨2, 6⟩]) 0 c4Envs 10 "main").1.processed ∧
    (monitorStart (some [⟨1, 5⟩, ⟨2, 6⟩]) 0 c4Envs 10 "main").2 = none := by
  refine ⟨by decide, by decide, by decide, by decide⟩

/-- When every comment post succeeds the cycle loop processes every
detected unit, whatever the per-unit analysis and tool outcomes are. -/
theorem startLoop_all_comments_ok (envs : Nat → UnitEnv) :
    ∀ (prs : List PRData) (b : String),
      (∀ pr ∈ prs, (envs pr.number).commentOk = true) →
      (startLoop envs prs b).processed = prs.map PRData.number ∧
      (startLoop envs prs b).aborted = false := by
  intro prs
  induction prs with
  | nil => intro b _; exact ⟨rfl, rfl⟩
  | cons pr rest ih =>
    intro b h
    have hpr := h pr (List.mem_cons_self ..)
    rw [startLoop]
    dsimp only
    rw [processPullRequest_threw, hpr]
    have hrest := ih ((processPullRequest pr (envs pr.number) b).2)
      (fun q hq => h q (List.mem_cons_of_mem _ hq))
    simp [hrest.1, hrest.2]

/-- A failing comment post is an uncaught error: the cycle loop stops
at the offending unit. -/
theorem startLoop_comment_failure_aborts (envs : Nat → UnitEnv) :
    ∀ (pre : List PRData) (pr : PRData) (rest : List PRData) (b : String),
      (∀ q ∈ pre, (envs q.number).commentOk = true) →
      (envs pr.number).commentOk = false →
      (startLoop envs (pre ++ pr :: rest) b).processed
          = pre.map PRData.number ++ [pr.number] ∧
      (startLoop envs (pre ++ pr :: rest) b).aborted = true := by
  intro pre
  induction pre with
  | nil =>
    intro pr rest b _ hbad
    rw [List.nil_append, startLoop]
    dsimp only
    rw [processPullRequest_threw, hbad]
    simp
  | cons q pre' ih =>
    intro pr rest b hpre hbad
    have hq := hpre q (List.mem_cons_self ..)
    rw [List.cons_append, startLoop]
    dsimp only
    rw [processPullRequest_threw, hq]
    have := ih pr rest ((processPullRequest q (envs q.number) b).2)
      (fun r hr => hpre r (List.mem_cons_of_mem _ hr)) hbad
    simp [this.1, this.2]

/-- **C4 (amended).** Errors raised inside a unit's analysis, test
execution or remediation trigger are caught within those steps, so when
every comment post succeeds the cycle processes every detected unit —
regardless of analysis or tool failures; but an error while posting a
unit's comment propagates out of `processPullRequest` and aborts the
loop: exactly the units up to and including the offending one are
processed. -/
theorem C4_comment_error_aborts_cycle (envs : Nat → UnitEnv) (br : String) :
    (∀ (prs : List PRData),
      (∀ pr ∈ prs, (envs pr.number).commentOk = true) →
      (startLoop envs prs br).processed = prs.map PRData.number ∧
      (startLoop envs prs br).aborted = false) ∧
    (∀ (pre : List PRData) (pr : PRData) (rest : List PRData),
      (∀ q ∈ pre, (envs q.number).commentOk = true) →
      (envs pr.number).commentOk = false →
      (startLoop envs (pre ++ pr :: rest) br).processed
          = pre.map PRData.number ++ [pr.number] ∧
      (startLoop envs (pre ++ pr :: rest) br).aborted = true) :=
  ⟨fun prs => startLoop_all_comments_ok envs prs br,
   fun pre pr rest => startLoop_comment_failure_aborts envs pre pr rest br⟩

/-- Witness for the amended C4 at a concrete cycle: all comments
succeed (all units processed even though unit 1's tests fail), and a
failing comment at unit 1 ends the cycle after unit 1. -/
theorem C4_comment_error_aborts_cycle_witness :
    (startLoop (fun n => ⟨none, fun _ => decide (n ≠ 1), true⟩)
        [⟨1, 5⟩, ⟨2, 6⟩] "main").processed = [1, 2] ∧
    (startLoop c4Envs [⟨1, 5⟩, ⟨2, 6⟩] "main").processed = [1] := by
  constructor
  · exact ((C4_comment_error_aborts_cycle
      (fun n => ⟨none, fun _ => decide (n ≠ 1), true⟩) "main").1
      [⟨1, 5⟩, ⟨2, 6⟩] (by decide)).1
  · exact ((C4_comment_error_aborts_cycle c4Envs "main").2
      [] ⟨1, 5⟩ [⟨2, 6⟩] (by intro q hq; simp at hq) (by decide)).1

/-! ## Claim C2: critical failure stops the run (but drops its record) -/

/-- **C2, evaluated at the claim's own example.** Five checks, the
second critical and failing: the run stops after two executed checks
(`passed + failed = 2`, checks C, D, E never run) and the overall
status is failed — but the recorded `results.tests` list holds only
*one* `CheckResult` (check A's): because `runTest` throws from inside
its `catch` *before* `this.results.tests.push(result)`, the failing
critical check's record is dropped, contradicting the claimed two
recorded entries (and leaving the report's summary counts inconsistent
with its `tests` array). -/
theorem C2_critical_failure_run :
    runChecks c2Checks initResults
      = ⟨1, 1, 0, [⟨"A", "passed", none, false⟩]⟩ ∧
    reportTotal (runChecks c2Checks initResults) = 2 ∧
    (runChecks c2Checks initResults).tests.length = 1 ∧
    reportSuccess (runChecks c2Checks initResults) = false := by
  refine ⟨by decide, by decide, by decide, by decide⟩

/-! ## Claim C3: advisory-only failures -/

/-- **C3 counterexample.** A run whose critical check passes and whose
only failure is the advisory linting check: the failure is recorded in
`results.tests`, but the overall verdict (`generateReport`'s return
value and the CLI exit criterion, both `failed === 0`) is *failed*, not
passed as claimed. -/
theorem C3_counterexample :
    (∀ c ∈ c3Checks, c.critical = true → c.ok = true) ∧
    (runChecks c3Checks initResults).tests
      = [⟨"Build Test", "passed", none, true⟩,
         ⟨"Linting", "failed", some "lint error", false⟩] ∧
    reportSuccess (runChecks c3Checks initResults) = false := by
  refine ⟨by decide, by decide, by decide⟩

/-- If every critical check passes, `runChecks` never aborts: every
check is executed, its record is appended in order, and the counters
count the passing and failing checks. -/
theorem runChecks_all_criticals_pass :
    ∀ (checks : List CheckSpec) (res : RunResults),
      (∀ c ∈ checks, c.critical = true → c.ok = true) →
      runChecks checks res =
        ⟨res.passed + (checks.filter (fun c => c.ok)).length,
         res.failed + (checks.filter (fun c => !c.ok)).length,
         res.skipped,
         res.tests ++ checks.map checkEntry⟩ := by
  intro checks
  induction checks with
  | nil => intro res _; simp [runChecks]
  | cons c rest ih =>
    intro res h
    rw [runChecks]
    dsimp only
    by_cases hok : c.ok = true
    · rw [runTest]
      simp only [hok, if_true]
      rw [ih _ (fun d hd => h d (List.mem_cons_of_mem _ hd))]
      simp [checkEntry, hok, List.filter_cons]
      omega
    · have hcrit : c.critical = false := by
        by_contra hc
        exact hok (h c (List.mem_cons_self ..) (by simpa using hc))
      rw [runTest]
      simp only [hok, if_false, Bool.false_eq_true, hcrit]
      rw [ih _ (fun d hd => h d (List.mem_cons_of_mem _ hd))]
      simp [checkEntry, hok, hcrit, List.filter_cons]
      omega

/-- **C3 (amended).** When every critical check passes and at least one
advisory check fails, every check is still executed and every failing
advisory check's record is present in `results.tests` — but the overall
run status is *failed* (`generateReport` returns false and the CLI
exits 1); the run is reported successful only when no check at all
fails. -/
theorem C3_advisory_failures_fail_run (checks : List CheckSpec)
    (hcrit : ∀ c ∈ checks, c.critical = true → c.ok = true)
    (hfail : ∃ c ∈ checks, c.ok = false) :
    reportSuccess (runChecks checks initResults) = false ∧
    (runChecks checks initResults).tests.length = checks.length ∧
    ∀ c ∈ checks, c.ok = false →
      (⟨c.name, "failed", some c.errMsg, c.critical⟩ : CheckResult)
        ∈ (runChecks checks initResults).tests := by
  rw [runChecks_all_criticals_pass checks initResults hcrit]
  obtain ⟨c₀, hc₀, hc₀f⟩ := hfail
  refine ⟨?_, ?_, ?_⟩
  · simp [reportSuccess, initResults]
    exact ⟨c₀, hc₀, hc₀f⟩
  · simp [initResults]
  · intro c hc hcf
    have hentry : checkEntry c = ⟨c.name, "failed", some c.errMsg, c.critical⟩ := by
      simp [checkEntry, hcf]
    rw [← hentry]
    simp [initResults]
    exact ⟨c, hc, rfl⟩

/-- Witness for the amended C3 at the concrete advisory-failure run. -/
theorem C3_advisory_failures_fail_run_witness :
    reportSuccess (runChecks c3Checks initResults) = false ∧
    (⟨"Linting", "failed", some "lint error", false⟩ : CheckResult)
      ∈ (runChecks c3Checks initResults).tests := by
  have h := C3_advisory_failures_fail_run c3Checks (by decide)
    ⟨⟨"Linting", false, false, "lint error"⟩, by decide, rfl⟩
  exact ⟨h.1, h.2.2 ⟨"Linting", false, false, "lint error"⟩ (by decide) rfl⟩

/-! ## Claim C7: one suggestion per repeated block -/

/-- Every suggestion the duplicate scan emits is anchored at one of the
scanned window positions. -/
theorem mem_dupScanAux_anchor :
    ∀ (ps : List DupPos) (seen : List (String × String × Nat))
      (s : Suggestion), s ∈ dupScanAux ps seen →
      ∃ p ∈ ps, s.file = some p.file ∧ s.line = some p.line := by
  intro ps
  induction ps with
  | nil => intro seen s h; simp [dupScanAux] at h
  | cons q ps' ih =>
    intro seen s h
    rw [dupScanAux] at h
    by_cases hlen : 50 < q.block.length
    · simp only [hlen, if_true] at h
      rcases hmatch : seen.lookup q.block with _ | fl
      · rw [hmatch] at h
        obtain ⟨p, hp, hps⟩ := ih _ s h
        exact ⟨p, List.mem_cons_of_mem _ hp, hps⟩
      · rw [hmatch] at h
        rcases List.mem_cons.mp h with hhead | htail
        · exact ⟨q, List.mem_cons_self .., by simp [hhead, dupSuggestion]⟩
        · obtain ⟨p, hp, hps⟩ := ih _ s htail
          exact ⟨p, List.mem_cons_of_mem _ hp, hps⟩
    · simp only [hlen, if_false] at h
      obtain ⟨p, hp, hps⟩ := ih _ s h
      exact ⟨p, List.mem_cons_of_mem _ hp, hps⟩

/-- If no remaining position sits at either of the two locations,
nothing the scan emits survives the location filter. -/
theorem anchoredAt_dupScanAux_nil (f₁ : String) (l₁ : Nat) (f₂ : String)
    (l₂ : Nat) (ps : List DupPos) (seen : List (String × String × Nat))
    (h : ∀ p ∈ ps, ¬(p.file = f₁ ∧ p.line = l₁) ∧
      ¬(p.file = f₂ ∧ p.line = l₂)) :
    anchoredAt f₁ l₁ f₂ l₂ (dupScanAux ps seen) = [] := by
  rw [anchoredAt, List.filter_eq_nil_iff]
  intro s hs
  obtain ⟨p, hp, hf, hl⟩ := mem_dupScanAux_anchor ps seen s hs
  have := h p hp
  simp [hf, hl]
  exact ⟨fun hf' hl' => (this.1 ⟨hf', hl'⟩), fun hf' hl' => (this.2 ⟨hf', hl'⟩)⟩

/-- A suggestion anchored at neither location is dropped by the
location filter. -/
theorem anchoredAt_cons_of_ne (f₁ : String) (l₁ : Nat) (f₂ : String)
    (l₂ : Nat) (s : Suggestion) (l : List Suggestion)
    (h₁ : ¬(s.file = some f₁ ∧ s.line = some l₁))
    (h₂ : ¬(s.file = some f₂ ∧ s.line = some l₂)) :
    anchoredAt f₁ l₁ f₂ l₂ (s :: l) = anchoredAt f₁ l₁ f₂ l₂ l := by
  rw [anchoredAt, anchoredAt, List.filter_cons, if_neg]
  simp only [Bool.or_eq_true, Bool.and_eq_true, beq_iff_eq]
  rintro (⟨hf, hl⟩ | ⟨hf, hl⟩)
  · exact h₁ ⟨hf, hl⟩
  · exact h₂ ⟨hf, hl⟩

/-- A suggestion anchored at the second location is kept by the
location filter. -/
theorem anchoredAt_cons_of_second (f₁ : String) (l₁ : Nat) (f₂ : String)
    (l₂ : Nat) (s : Suggestion) (l : List Suggestion)
    (hf : s.file = some f₂) (hl : s.line = some l₂) :
    anchoredAt f₁ l₁ f₂ l₂ (s :: l) = s :: anchoredAt f₁ l₁ f₂ l₂ l := by
  rw [anchoredAt, anchoredAt, List.filter_cons, if_pos]
  simp [hf, hl]

/-- After the first occurrence of block `b` has been stored at
`(f₁, l₁)`, the single remaining occurrence `p₂` produces exactly the
one suggestion referencing `(f₁, l₁)`. -/
theorem dupScanAux_second_occurrence (b : String) (f₁ : String) (l₁ : Nat)
    (p₂ : DupPos) :
    ∀ (ps : List DupPos) (seen : List (String × String × Nat)),
      ps.filter (fun p => p.block == b) = [p₂] →
      seen.lookup b = some (f₁, l₁) →
      (∀ p ∈ ps, ¬(p.file = f₁ ∧ p.line = l₁)) →
      (ps.map (fun p => (p.file, p.line))).Nodup →
      50 < b.length →
      anchoredAt f₁ l₁ p₂.file p₂.line (dupScanAux ps seen)
        = [dupSuggestion p₂.file p₂.line f₁ l₁] := by
  intro ps
  induction ps with
  | nil => intro seen hocc; simp at hocc
  | cons q ps' ih =>
    intro seen hocc hseen hno hnodup hb
    rw [List.filter_cons] at hocc
    rw [List.map_cons, List.nodup_cons] at hnodup
    by_cases hq : q.block = b
    · simp only [hq, beq_self_eq_true, if_true, List.cons.injEq] at hocc
      obtain ⟨hq₂, hocc'⟩ := hocc
      subst hq₂
      rw [dupScanAux, hq, if_pos hb, hseen]
      have hrest : anchoredAt f₁ l₁ q.file q.line (dupScanAux ps' seen)
          = [] := by
        apply anchoredAt_dupScanAux_nil
        intro p hp
        refine ⟨fun hcontra => hno p (List.mem_cons_of_mem _ hp) hcontra, ?_⟩
        intro hcontra
        apply hnodup.1
        have : (p.file, p.line) = (q.file, q.line) :=
          Prod.ext hcontra.1 hcontra.2
        rw [← this]
        exact List.mem_map_of_mem _ hp
      rw [anchoredAt_cons_of_second f₁ l₁ q.file q.line _ _ rfl rfl, hrest]
    · have hqb : (q.block == b) = false := by simp [hq]
      simp only [hqb, Bool.false_eq_true, if_false] at hocc
      rw [dupScanAux]
      have hp₂ : p₂ ∈ ps' := by
        have : p₂ ∈ ps'.filter (fun p => p.block == b) := by
          rw [hocc]; exact List.mem_singleton.mpr rfl
        exact List.mem_of_mem_filter this
      have hih := ih seen hocc hseen
        (fun p hp => hno p (List.mem_cons_of_mem _ hp)) hnodup.2 hb
      by_cases hlen : 50 < q.block.length
      · rw [if_pos hlen]
        rcases hmatch : seen.lookup q.block with _ | fl
        · -- first sight of q's block: store it; the lookup for b is intact
          dsimp only
          have hseen' : (((q.block, (q.file, q.line)) :: seen).lookup b)
              = some (f₁, l₁) := by
            rw [List.lookup_cons]
            have hne : (b == q.block) = false := by
              simp only [beq_eq_false_iff_ne, ne_eq]
              exact fun h => hq h.symm
            rw [hne]
            exact hseen
          exact ih _ hocc hseen'
            (fun p hp => hno p (List.mem_cons_of_mem _ hp)) hnodup.2 hb
        · -- q's block repeats another stored block: its suggestion is
          -- anchored at q's location, which is neither (f₁,l₁) nor p₂'s
          dsimp only
          have h₁ := hno q (List.mem_cons_self ..)
          have h₂ : ¬(q.file = p₂.file ∧ q.line = p₂.line) := by
            intro hcontra
            apply hnodup.1
            have : (p₂.file, p₂.line) = (q.file, q.line) :=
              (Prod.ext hcontra.1 hcontra.2).symm
            rw [← this]
            exact List.mem_map_of_mem _ hp₂
          rw [anchoredAt_cons_of_ne]
          · exact hih
          · exact fun hcontra =>
              h₁ ⟨Option.some.inj hcontra.1, Option.some.inj hcontra.2⟩
          · exact fun hcontra =>
              h₂ ⟨Option.some.inj hcontra.1, Option.some.inj hcontra.2⟩
      · rw [if_neg hlen]
        exact hih

/-- A block `b` occurring at exactly the two positions `p₁` (first) and
`p₂` (second) of the scan yields exactly one suggestion at those
locations: anchored at `p₂` and referencing `p₁`. -/
theorem dupScanAux_two_occurrences (b : String) (p₁ p₂ : DupPos) :
    ∀ (ps : List DupPos) (seen : List (String × String × Nat)),
      ps.filter (fun p => p.block == b) = [p₁, p₂] →
      seen.lookup b = none →
      (ps.map (fun p => (p.file, p.line))).Nodup →
      50 < b.length →
      anchoredAt p₁.file p₁.line p₂.file p₂.line (dupScanAux ps seen)
        = [dupSuggestion p₂.file p₂.line p₁.file p₁.line] := by
  intro ps
  induction ps with
  | nil => intro seen hocc; simp at hocc
  | cons q ps' ih =>
    intro seen hocc hseen hnodup hb
    rw [List.filter_cons] at hocc
    rw [List.map_cons, List.nodup_cons] at hnodup
    by_cases hq : q.block = b
    · simp only [hq, beq_self_eq_true, if_true, List.cons.injEq] at hocc
      obtain ⟨hq₁, hocc'⟩ := hocc
      subst hq₁
      rw [dupScanAux, hq, if_pos hb, hseen]
      dsimp only
      apply dupScanAux_second_occurrence b q.file q.line p₂ ps' _ hocc'
      · simp [List.lookup_cons]
      · intro p hp hcontra
        apply hnodup.1
        have : (p.file, p.line) = (q.file, q.line) :=
          Prod.ext hcontra.1 hcontra.2
        rw [← this]
        exact List.mem_map_of_mem _ hp
      · exact hnodup.2
      · exact hb
    · have hqb : (q.block == b) = false := by simp [hq]
      simp only [hqb, Bool.false_eq_true, if_false] at hocc
      rw [dupScanAux]
      have hp₁ : p₁ ∈ ps' := by
        have : p₁ ∈ ps'.filter (fun p => p.block == b) := by
          rw [hocc]; exact List.mem_cons_self ..
        exact List.mem_of_mem_filter this
      have hp₂ : p₂ ∈ ps' := by
        have : p₂ ∈ ps'.filter (fun p => p.block == b) := by
          rw [hocc]; exact List.mem_cons_of_mem _ (List.mem_singleton.mpr rfl)
        exact List.mem_of_mem_filter this
      have hne : ∀ r ∈ ps', ¬(r.file = q.file ∧ r.line = q.line) := by
        intro r hr hcontra
        apply hnodup.1
        have : (r.file, r.line) = (q.file, q.line) :=
          Prod.ext hcontra.1 hcontra.2
        rw [← this]
        exact List.mem_map_of_mem _ hr
      have hih := ih seen hocc hseen hnodup.2 hb
      by_cases hlen : 50 < q.block.length
      · rw [if_pos hlen]
        rcases hmatch : seen.lookup q.block with _ | fl
        · dsimp only
          have hseen' : (((q.block, (q.file, q.line)) :: seen).lookup b)
              = none := by
            rw [List.lookup_cons]
            have hne' : (b == q.block) = false := by
              simp only [beq_eq_false_iff_ne, ne_eq]
              exact fun h => hq h.symm
            rw [hne']
            exact hseen
          exact ih _ hocc hseen' hnodup.2 hb
        · dsimp only
          rw [anchoredAt_cons_of_ne]
          · exact hih
          · exact fun hcontra => hne p₁ hp₁
              ⟨(Option.some.inj hcontra.1).symm, (Option.some.inj hcontra.2).symm⟩
          · exact fun hcontra => hne p₂ hp₂
              ⟨(Option.some.inj hcontra.1).symm, (Option.some.inj hcontra.2).symm⟩
      · rw [if_neg hlen]
        exact hih

/-- **C7.** If the same 5-line window text `b` (trimmed length > 50)
occurs at exactly two positions of the scanned tree — `p₁` in one file,
then `p₂` in a different file — and window positions have distinct
locations, then the duplicate-block scanner emits, at those two
locations, exactly one suggestion: a medium-severity one anchored at the
second occurrence whose message references the first occurrence's file
and line. -/
theorem C7_duplicate_block_single_suggestion
    (files : List (String × List String)) (b : String) (p₁ p₂ : DupPos)
    (hlen : 50 < b.length)
    (hocc : (dupPositions files).filter (fun p => p.block == b) = [p₁, p₂])
    (hnodup : ((dupPositions files).map (fun p => (p.file, p.line))).Nodup)
    (hdiff : p₁.file ≠ p₂.file) :
    anchoredAt p₁.file p₁.line p₂.file p₂.line (checkForDuplicateCode files)
      = [dupSuggestion p₂.file p₂.line p₁.file p₁.line] :=
  dupScanAux_two_occurrences b p₁ p₂ (dupPositions files) [] hocc rfl
    hnodup hlen

/-- Witness for C7: the block repeated once in each of two files yields
the single suggestion anchored in the second file, referencing the
first. -/
theorem C7_duplicate_block_single_suggestion_witness :
    50 < c7Block.length ∧
    anchoredAt "a.ts" 1 "b.ts" 1 (checkForDuplicateCode c7Files)
      = [dupSuggestion "b.ts" 1 "a.ts" 1] := by
  refine ⟨by decide, ?_⟩
  exact C7_duplicate_block_single_suggestion c7Files c7Block
    ⟨"a.ts", 1, c7Block⟩ ⟨"b.ts", 1, c7Block⟩ (by decide) (by decide)
    (by decide) (by decide)

/-! ## Claim C8: the long-function 50-line boundary -/

/-- Everything the long-function loop emits is a long-function
suggestion for a span strictly above 50. -/
theorem lfLoop_emits_only_long (file : String) :
    ∀ (lines : List String) (i fnStart : Nat) (cur : Option String)
      (depth : Int) (s : Suggestion),
      s ∈ lfLoop file lines i cur fnStart depth →
      ∃ start len, 50 < len ∧ s = longFnSuggestion file start len := by
  intro lines
  induction lines with
  | nil => intro i fnStart cur depth s h; simp [lfLoop] at h
  | cons raw rest ih =>
    intro i fnStart cur depth s h
    rw [lfLoop] at h
    dsimp only at h
    split at h <;>
      (dsimp only at h
       split at h
       · rcases List.mem_append.mp h with hl | hr
         · split at hl
           · next hlen =>
               rw [List.mem_singleton] at hl
               exact ⟨_, _, of_decide_eq_true hlen, hl⟩
           · simp at hl
         · exact ih _ _ _ _ s hr
       · exact ih _ _ _ _ s h)

/-- Running the loop over `k` body lines followed by the closing brace,
with a tracked function opened at line 0 and one open brace: the span
at the closing line is `j + k`. -/
theorem lfLoop_filler (file d : String) :
    ∀ (k j : Nat), 0 < j →
      lfLoop file (List.replicate k "x" ++ ["\x7d"]) j (some d) 0 1 =
        if 50 < j + k then [longFnSuggestion file 0 (j + k)] else [] := by
  intro k
  induction k with
  | zero =>
    intro j hj
    have h1 : jsTrim "\x7d" = "\x7d" := by decide
    have h2 : isDeclLine "\x7d" = false := by decide
    have h3 : countChar '\x7b' "\x7d" = 0 := by decide
    have h4 : countChar '\x7d' "\x7d" = 1 := by decide
    rw [List.replicate, List.nil_append, lfLoop]
    simp [h1, h2, h3, h4, hj, lfLoop]
  | succ k ih =>
    intro j hj
    have h1 : jsTrim "x" = "x" := by decide
    have h2 : isDeclLine "x" = false := by decide
    have h3 : countChar '\x7b' "x" = 0 := by decide
    have h4 : countChar '\x7d' "x" = 0 := by decide
    rw [List.replicate_succ, List.cons_append, lfLoop]
    simp only [h1, h2, h3, h4, Bool.false_and, Bool.false_eq_true, if_false,
      Nat.cast_zero, add_zero, sub_zero]
    norm_num
    rw [ih (j + 1) (Nat.succ_pos j)]
    have harith : j + 1 + k = j + (k + 1) := by omega
    rw [harith]

/-- **C8.** Boundary behaviour of the long-function scanner.  (1) Every
emitted suggestion is a medium-severity long-function suggestion whose
reported span exceeds 50.  (2) On a function-like block whose
declaration is at line index 0 and whose brace depth returns to 0 at
line index `k + 1` — the code's `functionLength` span being
`(k + 1) - 0` — the scanner flags the block iff the span exceeds 50; in
particular a block spanning exactly 51 lines is flagged with a
medium-severity suggestion anchored at the declaration line (line 1),
and a block spanning exactly 50 lines is not flagged. -/
theorem C8_long_function_boundary :
    (∀ (file : String) (lines : List String) (i fnStart : Nat)
        (cur : Option String) (depth : Int) (s : Suggestion),
        s ∈ lfLoop file lines i cur fnStart depth →
        s.severity = "medium" ∧ ∃ start len, 50 < len ∧
          s = longFnSuggestion file start len) ∧
    (∀ k, checkForLongFunctions [("f.ts", funcFileLines k)] =
        if 50 < k + 1 then [longFnSuggestion "f.ts" 0 (k + 1)] else []) ∧
    checkForLongFunctions [("f.ts", funcFileLines 50)]
      = [longFnSuggestion "f.ts" 0 51] ∧
    (longFnSuggestion "f.ts" 0 51).line = some 1 ∧
    (longFnSuggestion "f.ts" 0 51).severity = "medium" ∧
    checkForLongFunctions [("f.ts", funcFileLines 49)] = [] := by
  have hfam : ∀ k, checkForLongFunctions [("f.ts", funcFileLines k)] =
      if 50 < k + 1 then [longFnSuggestion "f.ts" 0 (k + 1)] else [] := by
    intro k
    have h1 : jsTrim "function f() \x7b" = "function f() \x7b" := by decide
    have h2 : isDeclLine "function f() \x7b" = true := by decide
    have h3 : countChar '\x7b' "function f() \x7b" = 1 := by decide
    have h4 : countChar '\x7d' "function f() \x7b" = 0 := by decide
    rw [checkForLongFunctions]
    simp only [List.map_cons, List.map_nil, List.flatten,
      List.append_nil]
    rw [funcFileLines, lfLoop]
    simp only [h1, h2, h3, h4, Bool.and_true, Bool.true_and]
    norm_num
    rw [lfLoop_filler "f.ts" "function f() \x7b" k 1 Nat.one_pos]
    have harith : 1 + k = k + 1 := by omega
    rw [harith]
  refine ⟨?_, hfam, ?_, rfl, rfl, ?_⟩
  · intro file lines i fnStart cur depth s h
    obtain ⟨start, len, hlen, hs⟩ :=
      lfLoop_emits_only_long file lines i fnStart cur depth s h
    exact ⟨by rw [hs]; rfl, start, len, hlen, hs⟩
  · rw [hfam 50]; norm_num
  · rw [hfam 49]; norm_num

/-! ## Claim C9: severity sections rendered iff non-empty -/

theorem joinLines_cons (a : String) (l : List String) (h : l ≠ []) :
    joinLines (a :: l) = a ++ "\n" ++ joinLines l := by
  cases l with
  | nil => exact absurd rfl h
  | cons b t => rfl

theorem joinLines_append (l₁ l₂ : List String) (h₁ : l₁ ≠ []) (h₂ : l₂ ≠ []) :
    joinLines (l₁ ++ l₂) = joinLines l₁ ++ "\n" ++ joinLines l₂ := by
  induction l₁ with
  | nil => exact absurd rfl h₁
  | cons a t ih =>
    cases t with
    | nil =>
      rw [List.cons_append, List.nil_append, joinLines_cons a l₂ h₂]
      rfl
    | cons c t' =>
      rw [List.cons_append, joinLines_cons a ((c :: t') ++ l₂) (by simp),
        ih (by simp), joinLines_cons a (c :: t') (by simp)]
      simp [String.append_assoc]

/-- The newline-join of one section's lines, with the following
separator, is exactly the section chunk the source appends. -/
theorem joinLines_section (pfx : String) (items : List Suggestion) :
    joinLines (sectionLines pfx items) ++ "\n" = sectionStr pfx items := by
  have hitems : ∀ its : List Suggestion,
      joinLines (its.map suggLine ++ [""]) = itemsStr its := by
    intro its
    induction its with
    | nil => rfl
    | cons s rest ih =>
      rw [List.map_cons, List.cons_append,
        joinLines_cons _ _ (by simp), ih, itemsStr]
  rw [sectionLines, sectionStr, joinLines_cons _ _ (by simp), hitems]
  simp [String.append_assoc]

/-- The newline-join of the intro lines, with the following separator,
is exactly the intro chunk the source appends. -/
theorem joinLines_intro (n : Nat) :
    joinLines (introLines n) ++ "\n" =
      "## 🔧 Automated Code Improvements\n\n" ++
        ("This PR contains automated code improvements based on analysis of PR #"
          ++ (toString n ++ ".\n\n")) := by
  have e1 : ("## 🔧 Automated Code Improvements\n\n" : String)
      = "## 🔧 Automated Code Improvements" ++ ("\n" ++ "\n") := by decide
  have e2 : (".\n\n" : String) = "." ++ ("\n" ++ "\n") := by decide
  rw [introLines]
  simp only [joinLines, e1, e2, String.append_assoc, String.append_empty,
    String.empty_append]

set_option maxRecDepth 4096 in
theorem joinLines_tail : joinLines tailLines = descriptionTail := by decide

/-- The description string is the newline-join of its line
decomposition. -/
theorem generatePRDescription_eq_joinLines (n : Nat)
    (suggs : List Suggestion) :
    generatePRDescription n suggs = joinLines (descriptionLines n suggs) := by
  have hintro : ∀ (R : List String), R ≠ [] →
      joinLines (introLines n ++ R) =
        ("## 🔧 Automated Code Improvements\n\n" ++
          ("This PR contains automated code improvements based on analysis of PR #"
            ++ (toString n ++ ".\n\n"))) ++ joinLines R := by
    intro R hR
    rw [joinLines_append _ _ (by simp [introLines]) hR, ← joinLines_intro n]
  have hsec : ∀ (pfx : String) (items : List Suggestion) (R : List String),
      R ≠ [] →
      joinLines (sectionLines pfx items ++ R) =
        sectionStr pfx items ++ joinLines R := by
    intro pfx items R hR
    rw [joinLines_append _ _ (by simp [sectionLines]) hR,
      ← joinLines_section pfx items]
  rw [generatePRDescription, descriptionLines]
  by_cases hH : 0 < (sevFilter "high" suggs).length <;>
    by_cases hM : 0 < (sevFilter "medium" suggs).length <;>
      by_cases hL : 0 < (sevFilter "low" suggs).length <;>
        simp only [hH, hM, hL, if_true, if_false, List.nil_append] <;>
          rw [hintro _ (by simp [sectionLines, tailLines])] <;>
            (repeat rw [hsec _ _ _ (by simp [sectionLines, tailLines])]) <;>
              rw [joinLines_tail] <;> simp [String.append_assoc]

/-- A string starting with `p` differs from a literal whose first
`|p|` characters are not `p`. -/
theorem strAppendNeLit (p c : String)
    (h : c.data.take p.data.length ≠ p.data) (x : String) : p ++ x ≠ c := by
  intro hx
  apply h
  rw [← hx, String.data_append, List.take_left]

/-- Two strings with prefix-incomparable heads differ. -/
theorem strAppendNeAppend (p q : String)
    (h₁ : q.data.take p.data.length ≠ p.data)
    (h₂ : p.data.take q.data.length ≠ q.data) (x y : String) :
    p ++ x ≠ q ++ y := by
  intro hx
  have hdata : p.data ++ x.data = q.data ++ y.data := by
    rw [← String.data_append, ← String.data_append, hx]
  rcases List.append_eq_append_iff.mp hdata with ⟨k, hk, _⟩ | ⟨k, hk, _⟩
  · exact h₁ (by rw [hk, List.take_left])
  · exact h₂ (by rw [hk, List.take_left])

/-- A string starting with `p` is in no list of lines that all fail to
start with `p`. -/
theorem strAppend_not_in_list (p x : String) (ls : List String)
    (h : ∀ c ∈ ls, c.data.take p.data.length ≠ p.data) : p ++ x ∉ ls := by
  intro hmem
  apply h _ hmem
  rw [String.data_append, List.take_left]

/-- A section heading never coincides with a line of another severity
section (heading prefixes clash, bullets start with `- **`, and the
blank line is shorter). -/
theorem header_not_in_sectionLines (pfx pfx' : String) (cnt : Nat)
    (items : List Suggestion)
    (h₁ : pfx'.data.take pfx.data.length ≠ pfx.data)
    (h₂ : pfx.data.take pfx'.data.length ≠ pfx'.data)
    (h₃ : ("- **" : String).data.take pfx.data.length ≠ pfx.data)
    (h₄ : pfx.data.take ("- **" : String).data.length
      ≠ ("- **" : String).data)
    (h₅ : ("" : String).data.take pfx.data.length ≠ pfx.data) :
    sectionHeader pfx cnt ∉ sectionLines pfx' items := by
  intro h
  rw [sectionLines, sectionHeader] at h
  rcases List.mem_cons.mp h with h | h
  · rw [sectionHeader] at h
    exact strAppendNeAppend pfx pfx' h₁ h₂ _ _ h
  rcases List.mem_append.mp h with h | h
  · obtain ⟨s, _, heq⟩ := List.mem_map.mp h
    rw [suggLine] at heq
    exact strAppendNeAppend pfx "- **" h₃ h₄ _ _ heq.symm
  · rw [List.mem_singleton] at h
    exact strAppendNeLit pfx "" h₅ _ h

/-- A section heading never coincides with one of the intro lines. -/
theorem header_not_in_introLines (pfx : String) (cnt n : Nat)
    (h₁ : ("## 🔧 Automated Code Improvements" : String).data.take
      pfx.data.length ≠ pfx.data)
    (h₂ : ("" : String).data.take pfx.data.length ≠ pfx.data)
    (h₃ : ("This PR contains automated code improvements based on analysis of PR #" : String).data.take
      pfx.data.length ≠ pfx.data)
    (h₄ : pfx.data.take
      ("This PR contains automated code improvements based on analysis of PR #" : String).data.length
      ≠ ("This PR contains automated code improvements based on analysis of PR #" : String).data) :
    sectionHeader pfx cnt ∉ introLines n := by
  intro h
  rw [introLines, sectionHeader] at h
  rcases List.mem_cons.mp h with h | h
  · exact strAppendNeLit pfx _ h₁ _ h
  rcases List.mem_cons.mp h with h | h
  · exact strAppendNeLit pfx _ h₂ _ h
  rcases List.mem_cons.mp h with h | h
  · exact strAppendNeAppend pfx _ h₃ h₄ _ _ h
  · rw [List.mem_singleton] at h
    exact strAppendNeLit pfx _ h₂ _ h

/-- When no high-severity suggestion exists, the High heading (with any
count) appears nowhere in the description. -/
theorem highHeader_not_mem (n : Nat) (suggs : List Suggestion) (cnt : Nat)
    (hH : sevFilter "high" suggs = []) :
    sectionHeader hdrHigh cnt ∉ descriptionLines n suggs := by
  intro hmem
  rw [descriptionLines, hH] at hmem
  simp only [List.length_nil, lt_self_iff_false, if_false,
    List.nil_append] at hmem
  rcases List.mem_append.mp hmem with h | h
  · exact header_not_in_introLines hdrHigh cnt n (by decide) (by decide)
      (by decide) (by decide) h
  rcases List.mem_append.mp h with h | h
  · split at h
    · exact header_not_in_sectionLines hdrHigh hdrMed cnt _ (by decide)
        (by decide) (by decide) (by decide) (by decide) h
    · simp at h
  rcases List.mem_append.mp h with h | h
  · split at h
    · exact header_not_in_sectionLines hdrHigh hdrLow cnt _ (by decide)
        (by decide) (by decide) (by decide) (by decide) h
    · simp at h
  · rw [sectionHeader] at h
    exact strAppend_not_in_list hdrHigh _ tailLines (by decide) h

/-- When no medium-severity suggestion exists, the Medium heading (with
any count) appears nowhere in the description. -/
theorem mediumHeader_not_mem (n : Nat) (suggs : List Suggestion) (cnt : Nat)
    (hM : sevFilter "medium" suggs = []) :
    sectionHeader hdrMed cnt ∉ descriptionLines n suggs := by
  intro hmem
  rw [descriptionLines, hM] at hmem
  simp only [List.length_nil, lt_self_iff_false, if_false,
    List.nil_append] at hmem
  rcases List.mem_append.mp hmem with h | h
  · exact header_not_in_introLines hdrMed cnt n (by decide) (by decide)
      (by decide) (by decide) h
  rcases List.mem_append.mp h with h | h
  · split at h
    · exact header_not_in_sectionLines hdrMed hdrHigh cnt _ (by decide)
        (by decide) (by decide) (by decide) (by decide) h
    · simp at h
  rcases List.mem_append.mp h with h | h
  · split at h
    · exact header_not_in_sectionLines hdrMed hdrLow cnt _ (by decide)
        (by decide) (by decide) (by decide) (by decide) h
    · simp at h
  · rw [sectionHeader] at h
    exact strAppend_not_in_list hdrMed _ tailLines (by decide) h

/-- When no low-severity suggestion exists, the Low heading (with any
count) appears nowhere in the description. -/
theorem lowHeader_not_mem (n : Nat) (suggs : List Suggestion) (cnt : Nat)
    (hL : sevFilter "low" suggs = []) :
    sectionHeader hdrLow cnt ∉ descriptionLines n suggs := by
  intro hmem
  rw [descriptionLines, hL] at hmem
  simp only [List.length_nil, lt_self_iff_false, if_false,
    List.nil_append] at hmem
  rcases List.mem_append.mp hmem with h | h
  · exact header_not_in_introLines hdrLow cnt n (by decide) (by decide)
      (by decide) (by decide) h
  rcases List.mem_append.mp h with h | h
  · split at h
    · exact header_not_in_sectionLines hdrLow hdrHigh cnt _ (by decide)
        (by decide) (by decide) (by decide) (by decide) h
    · simp at h
  rcases List.mem_append.mp h with h | h
  · split at h
    · exact header_not_in_sectionLines hdrLow hdrMed cnt _ (by decide)
        (by decide) (by decide) (by decide) (by decide) h
    · simp at h
  · rw [sectionHeader] at h
    exact strAppend_not_in_list hdrLow _ tailLines (by decide) h

/-- **C9.** The description equals the newline-join of its line list,
and in that list each of the High/Medium/Low section headings (with its
count) is present iff a suggestion of that severity exists; the fixed
automatic-fixes note is always present.  In particular for one high and
two low suggestions and no medium ones, the High and Low sections are
rendered and Medium is omitted, followed by the automatic-fixes note. -/
theorem C9_severity_sections_iff (n : Nat) (suggs : List Suggestion) :
    generatePRDescription n suggs = joinLines (descriptionLines n suggs) ∧
    (sectionHeader hdrHigh (sevFilter "high" suggs).length
        ∈ descriptionLines n suggs ↔ sevFilter "high" suggs ≠ []) ∧
    (sectionHeader hdrMed (sevFilter "medium" suggs).length
        ∈ descriptionLines n suggs ↔ sevFilter "medium" suggs ≠ []) ∧
    (sectionHeader hdrLow (sevFilter "low" suggs).length
        ∈ descriptionLines n suggs ↔ sevFilter "low" suggs ≠ []) ∧
    "### 🤖 Automatic Fixes Applied" ∈ descriptionLines n suggs := by
  refine ⟨generatePRDescription_eq_joinLines n suggs, ?_, ?_, ?_, ?_⟩
  · constructor
    · intro hmem
      intro hnil
      exact highHeader_not_mem n suggs _ hnil hmem
    · intro hne
      rw [descriptionLines, if_pos (List.length_pos.mpr hne)]
      refine List.mem_append.mpr (Or.inr (List.mem_append.mpr (Or.inl ?_)))
      rw [sectionLines]
      exact List.mem_cons_self ..
  · constructor
    · intro hmem
      intro hnil
      exact mediumHeader_not_mem n suggs _ hnil hmem
    · intro hne
      rw [descriptionLines, if_pos (List.length_pos.mpr hne)]
      refine List.mem_append.mpr (Or.inr (List.mem_append.mpr (Or.inr
        (List.mem_append.mpr (Or.inl ?_)))))
      rw [sectionLines]
      exact List.mem_cons_self ..
  · constructor
    · intro hmem
      intro hnil
      exact lowHeader_not_mem n suggs _ hnil hmem
    · intro hne
      rw [descriptionLines, if_pos (List.length_pos.mpr hne)]
      refine List.mem_append.mpr (Or.inr (List.mem_append.mpr (Or.inr
        (List.mem_append.mpr (Or.inr (List.mem_append.mpr (Or.inl ?_)))))))
      rw [sectionLines]
      exact List.mem_cons_self ..
  · rw [descriptionLines]
    refine List.mem_append.mpr (Or.inr (List.mem_append.mpr (Or.inr
      (List.mem_append.mpr (Or.inr (List.mem_append.mpr (Or.inr ?_)))))))
    rw [tailLines]
    exact List.mem_cons_self ..

/-- Witness for C9 at the claim's own example (1 high, 2 low,
0 medium): High and Low sections rendered, Medium omitted, fixed note
present. -/
theorem C9_severity_sections_iff_witness :
    sectionHeader hdrHigh 1 ∈ descriptionLines 7 c9Suggs ∧
    sectionHeader hdrLow 2 ∈ descriptionLines 7 c9Suggs ∧
    sectionHeader hdrMed 0 ∉ descriptionLines 7 c9Suggs ∧
    "### 🤖 Automatic Fixes Applied" ∈ descriptionLines 7 c9Suggs := by
  have h := C9_severity_sections_iff 7 c9Suggs
  refine ⟨h.2.1.mpr (by decide), h.2.2.2.1.mpr (by decide),
    fun hmem => h.2.2.1.mp hmem (by decide), h.2.2.2.2⟩

/-- Witness for C8: the concrete span-51 block's suggestion is among the
loop's emissions, and the general part applies to it. -/
theorem C8_long_function_boundary_witness :
    longFnSuggestion "f.ts" 0 51
      ∈ lfLoop "f.ts" (funcFileLines 50) 0 none 0 0 ∧
    (longFnSuggestion "f.ts" 0 51).severity = "medium" := by
  have hmem : longFnSuggestion "f.ts" 0 51
      ∈ lfLoop "f.ts" (funcFileLines 50) 0 none 0 0 := by
    have h := C8_long_function_boundary.2.2.1
    rw [checkForLongFunctions] at h
    simp only [List.map_cons, List.map_nil, List.flatten,
      List.append_nil] at h
    rw [h]
    exact List.mem_singleton.mpr rfl
  exact ⟨hmem, (C8_long_function_boundary.1 "f.ts" (funcFileLines 50)
    0 0 none 0 _ hmem).1⟩

end Unstack
